import Mathlib

/-!
# Verification of the hanu chat-bot dispatch engine

A shallow embedding of the repository's Go sources (`main.go` and the
Listener file) in Lean 4, together with proofs of the specification's
claims about the dispatch engine.

The repository provides two source files: `main.go` (the `Bot` type, the
handshake, the receive loop, the dispatch passes `process`,
`searchCommand`, `searchListener`, `sendHelp`, and the registration API)
and the Listener file (`Listener`, `NewListener`, `Get`, `Set`,
`SetHandler`, `Handle`).  Types that `main.go` uses but whose source file
is not part of the provided sources (`Message`, `CommandInterface` /
`NewCommand`, the conversation constructors) are modelled from the
specification, and each such definition is marked `Modelled from the
spec:` in its doc comment.

Side effects (spawning handler goroutines, sending frames on the socket)
are modelled as event traces: every function that in Go fires handlers
or writes to the websocket returns, in the embedding, the list of those
events in the order the Go code performs them.
-/

namespace Hanu

/-! ## Character-list string utilities

The Go sources use `strings`/`regexp` routines on message text.  We
model text operations structurally on `List Char` so that every
definition evaluates inside the kernel (for concrete witnesses).
-/

/-- Split a character list at the first occurrence of the (non-empty)
token `tok`: `splitFirst tok l = some (a, b)` when `l = a ++ tok ++ b`
and `tok` does not occur in any shorter prefix; `none` when `tok` does
not occur in `l`. -/
def splitFirst (tok : List Char) : List Char → Option (List Char × List Char)
  | [] => if tok = [] then some ([], []) else none
  | c :: cs =>
    if tok.isPrefixOf (c :: cs) then some ([], (c :: cs).drop tok.length)
    else (splitFirst tok cs).map (fun p => (c :: p.1, p.2))

/-- `true` iff the token `tok` occurs as a contiguous substring of `s`. -/
def containsTok (tok s : String) : Bool :=
  (splitFirst tok.data s.data).isSome

/-- Remove the first occurrence of the token `tok` from `s` (identity
when `tok` does not occur). -/
def removeFirstTok (tok s : String) : String :=
  match splitFirst tok.data s.data with
  | some (a, b) => String.mk (a ++ b)
  | none => s

/-- `true` iff `p` is a prefix of `s` (as character sequences). -/
def strStartsWith (s p : String) : Bool :=
  p.data.isPrefixOf s.data

/-- Drop the first `n` characters of `s`. -/
def strDrop (s : String) (n : Nat) : String :=
  String.mk (s.data.drop n)

/-! ## Message

Modelled from the spec: the repository's `Message` type is not among the
provided source files; §3 of the spec describes it as carrying the raw
text as received, a derived/stripped text mutated during classification,
a sender identifier, a channel identifier and a channel-type flag
(direct vs. channel).  `main.go` reads the raw text through the field
`msg.Message` (in `searchListener`) and the derived text through
`msg.Text()`; it overwrites the derived text with `msg.SetText`.
-/

/-- Modelled from the spec: the `Message` record.  `message` is the raw
text as received (the field `Message` read by `searchListener`); `text`
is the derived/stripped text (`Text()` / `SetText`); `direct` is the
channel-type flag (`IsDirectMessage()`). -/
structure Message where
  channel : String
  user : String
  message : String
  text : String
  direct : Bool
  deriving DecidableEq, Repr

/-- Modelled from the spec: `User()` returns the sender identifier. -/
def Message.User (m : Message) : String := m.user

/-- Modelled from the spec: `IsDirectMessage()` reports the channel-type
flag. -/
def Message.IsDirectMessage (m : Message) : Bool := m.direct

/-- Modelled from the spec: `Text()` returns the derived text. -/
def Message.Text (m : Message) : String := m.text

/-- Modelled from the spec: `SetText` overwrites the derived text. -/
def Message.SetText (m : Message) (t : String) : Message := { m with text := t }

/-- The mention token referencing a user identifier (Slack markup
`<@ID>`). -/
def mentionTok (id : String) : String := "<@" ++ id ++ ">"

/-- Modelled from the spec (§4.2): `IsBotMessage(prefix, botID)` is true
if the derived text starts with the prefix, or contains a mention token
referencing the bot identifier, or the channel-type flag indicates a
direct channel. -/
def Message.IsBotMessage (m : Message) (pref id : String) : Bool :=
  strStartsWith m.text pref || containsTok (mentionTok id) m.text || m.direct

/-- Modelled from the spec (§4.2): `StripMention(botID)` removes the
first mention token referencing the bot identifier from the derived
text, in place. -/
def Message.StripMention (m : Message) (id : String) : Message :=
  { m with text := removeFirstTok (mentionTok id) m.text }

/-- One step of link-markup stripping on a character list, with explicit
fuel (the input length is always enough fuel, since each step consumes
at least one character).  `<url|label>` becomes `label` and `<url>`
becomes `url`; a `<` with no closing `>` is kept verbatim. -/
def stripLinksFuel : Nat → List Char → List Char
  | 0, l => l
  | _ + 1, [] => []
  | fuel + 1, c :: rest =>
    if c = '<' then
      match splitFirst ['>'] rest with
      | none => c :: stripLinksFuel fuel rest
      | some (inside, after) =>
        (match splitFirst ['|'] inside with
         | some (_, label) => label
         | none => inside) ++ stripLinksFuel fuel after
    else c :: stripLinksFuel fuel rest

/-- Modelled from the spec (§4.2): `StripLinkMarkup` rewrites the
backend's link decoration in the derived text, in place:
`<url|label>` → `label`, `<url>` → `url`. -/
def Message.StripLinkMarkup (m : Message) : Message :=
  { m with text := String.mk (stripLinksFuel m.text.data.length m.text.data) }

/-- Modelled from the spec (§4.2): `StripPrefix(prefix)` removes a
single leading occurrence of the prefix from the derived text, in
place. -/
def Message.StripPref (m : Message) (pref : String) : Message :=
  if strStartsWith m.text pref then { m with text := strDrop m.text pref.length }
  else m

/-- Modelled from the spec (§4.2): the reserved help keyword (the spec
fixes an exact, case-sensitive keyword; `help` is the reserved word). -/
def helpKeyword : String := "help"

/-- Modelled from the spec (§4.2): `IsHelpRequest()` is true iff the
fully-stripped derived text equals the reserved help keyword. -/
def Message.IsHelpRequest (m : Message) : Bool :=
  m.text == helpKeyword

/-! ## Conversations

Modelled from the spec (§3): per-invocation context objects.  The
non-owning socket reference they hold in Go is process-global and
carries no information for dispatch, so it is not a field here.
-/

/-- A match result: a mapping from placeholder name to captured
string. -/
def MatchResult : Type := List (String × String)

/-- Modelled from the spec: `NewConversation(match, msg, socket)` binds
a match result and the originating message for one command-handler
invocation. -/
structure Conversation where
  result : MatchResult
  message : Message

/-- Modelled from the spec: `NewConversation`. -/
def NewConversation (result : MatchResult) (msg : Message) : Conversation :=
  { result := result, message := msg }

/-- Modelled from the spec: `NewListenerConversation(msg, socket)` binds
the originating message for one listener-handler invocation. -/
structure ListenerConversation where
  message : Message
  deriving DecidableEq

/-- Modelled from the spec: `NewListenerConversation`. -/
def NewListenerConversation (msg : Message) : ListenerConversation :=
  { message := msg }

/-! ## Listener (from the Listener source file)

The Listener file is part of the provided sources; these definitions
are its direct translation.  Handler functions are opaque values of a
type parameter `LH`; `Handle`'s `go c.handler(conv)` is modelled by
returning the spawned call as the pair (handler, conversation).
-/

/-- The `Listener` struct: a raw regular-expression string and a
handler. -/
structure Listener (LH : Type) where
  regex : String
  handler : LH

/-- `SetHandler` sets the handler. -/
def Listener.SetHandler (c : Listener LH) (handler : LH) : Listener LH :=
  { c with handler := handler }

/-- `Handle` calls the Listener's handler on the conversation in a new
goroutine (`go c.handler(conv)`); the spawned call is the returned
event. -/
def Listener.Handle (c : Listener LH) (conv : ListenerConversation) :
    LH × ListenerConversation :=
  (c.handler, conv)

/-- `Get` returns the regex. -/
def Listener.Get (c : Listener LH) : String :=
  c.regex

/-- `Set` defines the regex. -/
def Listener.Set (c : Listener LH) (cmd : String) : Listener LH :=
  { c with regex := cmd }

/-- The Go zero value `Listener{}` built by `NewListener`; its nil
handler is modelled by the `Inhabited` default. -/
def Listener.empty [Inhabited LH] : Listener LH :=
  { regex := "", handler := default }

/-- `NewListener` creates a new Listener: starting from the zero value,
`Set` the regex, then `SetHandler` the handler. -/
def NewListener [Inhabited LH] (regex : String) (handler : LH) : Listener LH :=
  (Listener.empty.Set regex).SetHandler handler

/-! ## Command

Modelled from the spec: the command file (`CommandInterface`,
`NewCommand`, the pattern matcher) is not among the provided sources.
`main.go` uses a command only through the interface: `Get().Match(text)`
(match attempt on the derived text), `Get().Text()` (the raw pattern),
`Description()`, and `Handle(conversation)`.  The per-command match
attempt is therefore a function field; handlers are opaque values of a
type parameter `CH`.
-/

/-- Modelled from the spec: a registered command as seen through
`CommandInterface` — raw pattern text, description, the compiled
pattern's match attempt (`some` = matched, with the extracted
parameters; `none` = no match), and the handler. -/
structure Command (CH : Type) where
  text : String
  description : String
  matchFn : String → Option MatchResult
  handler : CH

/-- Modelled from the spec (§3, §4.3): `NewCommand(text, description,
handler)` constructs a Command, compiling the pattern once at
registration; the pattern compiler itself is the `compile` argument. -/
def NewCommand (compile : String → String → Option MatchResult)
    (text description : String) (handler : CH) : Command CH :=
  { text := text, description := description, matchFn := compile text,
    handler := handler }

/-! ## The regexp library interface

Modelled from the spec: `searchListener` calls Go's `regexp.Compile`
and `(*Regexp).MatchString`.  The library is modelled as an abstract
engine: `compile` may fail (an invalid pattern yields `none`, as
`regexp.Compile` returns a nil `*Regexp` and an error), and
`matchString` reports whether the compiled expression matches anywhere
in the text (Go's `MatchString` is unanchored).
-/

/-- Modelled from the spec: the fragment of Go's `regexp` package used
by `searchListener`.  `ρ` is the type of compiled expressions. -/
structure RegexEngine (ρ : Type) where
  compile : String → Option ρ
  matchString : ρ → String → Bool

/-! ## Bot (from main.go) -/

/-- The `Bot` struct from `main.go`.  `CH`/`LH` are the opaque handler
types, `σ` the socket type; the Go field `Prefix` is called `pref`
here. -/
structure Bot (CH LH σ : Type) where
  socket : Option σ
  token : String
  id : String
  commands : List (Command CH)
  listeners : List (Listener LH)
  pref : String

/-- `SetPrefix` (from `main.go`) overwrites the command prefix. -/
def Bot.SetPref (b : Bot CH LH σ) (pref : String) : Bot CH LH σ :=
  { b with pref := pref }

/-! ## The command pass (`searchCommand`, from main.go)

The Go loop walks `b.Commands` in order; for each command whose
`Match` succeeds it calls `cmd.Handle(NewConversation(match, msg,
b.Socket))` and sets the flag `c`.  Handler invocations are returned
as the list of spawned calls, in loop order.
-/

/-- The body of `searchCommand`'s loop over the remaining commands,
carrying the flag `c` (tail recursion = the Go `for` loop). -/
def searchCommandGo (msg : Message) :
    List (Command CH) → Bool → List (CH × Conversation) × Bool
  | [], c => ([], c)
  | cmd :: rest, c =>
    match cmd.matchFn msg.Text with
    | some m =>
      let r := searchCommandGo msg rest true
      ((cmd.handler, NewConversation m msg) :: r.1, r.2)
    | none => searchCommandGo msg rest c

/-- `searchCommand` (from `main.go`): search for a command matching the
message; returns the spawned handler calls and the flag `c` (initially
`false`). -/
def Bot.searchCommand (b : Bot CH LH σ) (msg : Message) :
    List (CH × Conversation) × Bool :=
  searchCommandGo msg b.commands false

/-! ## The listener pass (`searchListener`, from main.go)

The Go loop compiles each listener's regex with `regexp.Compile`,
**discarding the error**; when compilation fails the returned
`*Regexp` is nil and the subsequent `r.MatchString(msg.Message)`
dereferences it — a runtime fault that aborts the processing unit.
The fault is modelled as `Except.error`, carrying the handler calls
already spawned before the fault.  Note the match is run against the
raw-text field `msg.Message`, not `msg.Text()`.
-/

/-- The body of `searchListener`'s loop over the remaining listeners,
carrying the flag `l`. -/
def searchListenerGo (E : RegexEngine ρ) (msg : Message) :
    List (Listener LH) → Bool →
    Except (List (LH × ListenerConversation)) (List (LH × ListenerConversation) × Bool)
  | [], l => .ok ([], l)
  | lst :: rest, l =>
    match E.compile lst.Get with
    | none => .error []
    | some r =>
      if E.matchString r msg.message then
        match searchListenerGo E msg rest true with
        | .ok (evs, l') => .ok (lst.Handle (NewListenerConversation msg) :: evs, l')
        | .error evs => .error (lst.Handle (NewListenerConversation msg) :: evs)
      else searchListenerGo E msg rest l

/-- `searchListener` (from `main.go`). -/
def Bot.searchListener (E : RegexEngine ρ) (b : Bot CH LH σ) (msg : Message) :
    Except (List (LH × ListenerConversation)) (List (LH × ListenerConversation) × Bool) :=
  searchListenerGo E msg b.listeners false

/-! ## Help generation (`sendHelp`, from main.go) -/

/-- The body of `sendHelp`'s loop over the remaining commands, carrying
the accumulated help text: append the raw pattern in backticks, then
`" *–* "` and the description when the description is non-empty, then a
newline. -/
def sendHelpGo : List (Command CH) → String → String
  | [], help => help
  | cmd :: rest, help =>
    let help := help ++ "`" ++ cmd.text ++ "`"
    let help := if cmd.description ≠ "" then help ++ " *–* " ++ cmd.description else help
    sendHelpGo rest (help ++ "\n")

/-- The help text built by `sendHelp`: the loop starting from the
header line, and — when the message is not a direct message — the
`<@user>: ` mention of the sender prepended. -/
def Bot.sendHelpText (b : Bot CH LH σ) (msg : Message) : String :=
  let help := sendHelpGo b.commands "I can support you with those features:\n\n"
  if !msg.IsDirectMessage then "<@" ++ msg.User ++ ">: " ++ help else help

/-- `sendHelp` (from `main.go`): the outbound frame written to the
socket — the inbound message with its text overwritten by the help
text (`msg.SetText(help); websocket.JSON.Send(b.Socket, msg)`). -/
def Bot.sendHelp (b : Bot CH LH σ) (msg : Message) : Message :=
  msg.SetText (b.sendHelpText msg)

/-! ## The per-message dispatch (`process`, from main.go)

All side effects of processing one inbound message, in order: frames
sent on the socket and handler goroutines spawned.  A nil-regexp fault
inside the listener pass aborts the processing unit; this is the
`Except.error` case, carrying the events that happened before the
fault.
-/

/-- One observable side effect of `process`. -/
inductive Event (CH LH : Type) where
  | sent (outbound : Message)
  | cmd (handler : CH) (conv : Conversation)
  | lst (handler : LH) (conv : ListenerConversation)

/-- The command-pass spawned calls as events. -/
def cmdEvents (l : List (CH × Conversation)) : List (Event CH LH) :=
  l.map (fun p => .cmd p.1 p.2)

/-- The listener-pass spawned calls as events. -/
def lstEvents (l : List (LH × ListenerConversation)) : List (Event CH LH) :=
  l.map (fun p => .lst p.1 p.2)

/-- `process` (from `main.go`): classification, then — for bot-addressed
messages — the strip sequence, the help check, the command pass, and
only when no command matched the fall-through to the listener pass on
the stripped message; non-bot-addressed messages go straight to the
listener pass. -/
def Bot.process (E : RegexEngine ρ) (b : Bot CH LH σ) (message : Message) :
    Except (List (Event CH LH)) (List (Event CH LH)) :=
  if message.IsBotMessage b.pref b.id then
    let message := message.StripMention b.id
    let message := message.StripLinkMarkup
    let message := message.StripPref b.pref
    if message.IsHelpRequest then
      .ok [.sent (b.sendHelp message)]
    else
      let r := b.searchCommand message
      if r.2 then
        .ok (cmdEvents r.1)
      else
        match b.searchListener E message with
        | .ok (evs, _) => .ok (cmdEvents r.1 ++ lstEvents evs)
        | .error evs => .error (cmdEvents r.1 ++ lstEvents evs)
  else
    match b.searchListener E message with
    | .ok (evs, _) => .ok (lstEvents evs)
    | .error evs => .error (lstEvents evs)

/-! ## The receive loop (`Listen`, from main.go)

`Listen` is `for { if websocket.JSON.Receive(b.Socket, &msg) == nil {
go b.process(msg); msg = Message{} } }`.  One call to `Receive` either
decodes a frame (nil error) or reports a non-nil error — a malformed
frame or connection termination (end of stream); the body spawns a
processing goroutine exactly in the nil-error case and contains no
`return` or `break`.  The loop is modelled by its body's outcome on one
receive result and by a run over a finite prefix of receive results.
-/

/-- The outcome of one receive: a decoded message (`Receive` returned a
nil error) or a failure (malformed frame or connection termination). -/
inductive ReceiveResult (M : Type) where
  | ok (m : M)
  | fail
  deriving DecidableEq

/-- What a loop body can do: proceed to the next iteration (having
spawned at most one processing unit), or leave the loop so that
`Listen` returns. -/
inductive LoopCmd (M : Type) where
  | next (spawned : Option M)
  | ret
  deriving DecidableEq

/-- The body of `Listen`'s `for` loop on one receive result. -/
def listenBody : ReceiveResult M → LoopCmd M
  | .ok m => .next (some m)
  | .fail => .next none

/-- A run of `Listen` over a finite prefix of receive results: the
processing units spawned (in order) and whether `Listen` returned
during the prefix. -/
def listenRun : List (ReceiveResult M) → List M × Bool
  | [] => ([], false)
  | r :: rest =>
    match listenBody r with
    | .ret => ([], true)
    | .next sp =>
      let t := listenRun rest
      (sp.toList ++ t.1, t.2)

/-! ## Bootstrap (`New` / `Handshake`, from main.go)

The effectful steps of `Handshake` — `http.Get`, `ioutil.ReadAll`,
`json.Unmarshal`, `websocket.Dial` — are supplied by an environment
record; `Handshake` itself is the exact decision sequence of the
source.  Alongside the `*Bot, error` result it returns whether a
websocket connection was attempted (`websocket.Dial` reached).
-/

/-- The negotiation HTTP response: status code and body (`none` models
a `ReadAll` failure). -/
structure HttpRes where
  statusCode : Nat
  body : Option String

/-- `handshakeResponseSelf` from `main.go`. -/
structure HandshakeResponseSelf where
  id : String

/-- `handshakeResponse` from `main.go`. -/
structure HandshakeResponse where
  ok : Bool
  error : String
  url : String
  self : HandshakeResponseSelf

/-- The environment of effectful calls made by `Handshake`:
`httpGet` is the result of `http.Get` (`none` models a connection
error), `unmarshal` is `json.Unmarshal` on the body, and `dial` is
`websocket.Dial` on the returned URL (`none` models a dial failure). -/
structure SlackEnv (σ : Type) where
  httpGet : Option HttpRes
  unmarshal : String → Option HandshakeResponse
  dial : String → Option σ

/-- `Handshake` (from `main.go`): connect to the Slack API to get a
socket connection.  Second component: whether `websocket.Dial` was
attempted. -/
def Bot.Handshake (env : SlackEnv σ) (b : Bot CH LH σ) :
    Except String (Bot CH LH σ) × Bool :=
  match env.httpGet with
  | none => (.error "Failed to connect to Slack RTM API", false)
  | some res =>
    if res.statusCode ≠ 200 then
      (.error ("Failed with HTTP Code: " ++ toString res.statusCode), false)
    else
      match res.body with
      | none => (.error "Failed to read body from response", false)
      | some body =>
        match env.unmarshal body with
        | none => (.error ("Failed to unmarshal JSON: " ++ body), false)
        | some response =>
          if !response.ok then
            (.error response.error, false)
          else
            let b := { b with id := response.self.id }
            match env.dial response.url with
            | none => (.error "Failed to connect to Websocket", true)
            | some sock => (.ok { b with socket := some sock }, true)

/-- `New` (from `main.go`): creates a new bot — the zero-valued `Bot`
with the token and the default prefix `"!"` — and runs `Handshake`. -/
def New (env : SlackEnv σ) (token : String) : Except String (Bot CH LH σ) × Bool :=
  Bot.Handshake env
    { socket := none, token := token, id := "", commands := [], listeners := [],
      pref := "!" }

/-! ## Registration API (from main.go) -/

/-- `Command` (from `main.go`): adds a new command with custom handler —
`NewCommand(cmd, "", handler)` appended to the registry.  The pattern
compiler used by `NewCommand` is the `compile` argument. -/
def Bot.Command (compile : String → String → Option MatchResult)
    (b : Bot CH LH σ) (cmd : String) (handler : CH) : Bot CH LH σ :=
  { b with commands := b.commands ++ [NewCommand compile cmd "" handler] }

/-- `Hear` (from `main.go`): adds a new listener with a custom
handler. -/
def Bot.Hear [Inhabited LH] (b : Bot CH LH σ) (regex : String) (handler : LH) :
    Bot CH LH σ :=
  { b with listeners := b.listeners ++ [NewListener regex handler] }

/-- `RegisterCommand` (from `main.go`). -/
def Bot.RegisterCommand (b : Bot CH LH σ) (cmd : Hanu.Command CH) : Bot CH LH σ :=
  { b with commands := b.commands ++ [cmd] }

/-- `RegisterListener` (from `main.go`). -/
def Bot.RegisterListener (b : Bot CH LH σ) (lst : Listener LH) : Bot CH LH σ :=
  { b with listeners := b.listeners ++ [lst] }

/-! ## Characterizations

Spec-side descriptions of the passes, to be proved equal to the code
above.
-/

/-- The message after the full strip sequence of `process`:
mention-strip, then link-strip, then prefix-strip. -/
def strippedMsg (b : Bot CH LH σ) (m : Message) : Message :=
  ((m.StripMention b.id).StripLinkMarkup).StripPref b.pref

/-- Whether one command matches the derived text of a message. -/
def commandMatches (msg : Message) (cmd : Command CH) : Bool :=
  (cmd.matchFn msg.Text).isSome

/-- The handler calls the command pass should spawn: one per matching
command, in registration order, each with that command's own match
result. -/
def commandPassCalls (b : Bot CH LH σ) (msg : Message) : List (CH × Conversation) :=
  b.commands.filterMap (fun cmd =>
    (cmd.matchFn msg.Text).map (fun m => (cmd.handler, NewConversation m msg)))

/-- Whether one listener's regex (once compiled by the engine) matches
the given text; a non-compiling regex matches nothing. -/
def listenerMatches (E : RegexEngine ρ) (text : String) (lst : Listener LH) : Bool :=
  match E.compile lst.Get with
  | some r => E.matchString r text
  | none => false

/-- The handler calls the listener pass should spawn: one per listener
whose regex matches the **raw** text (the `message` field), in
registration order. -/
def listenerPassCalls (E : RegexEngine ρ) (b : Bot CH LH σ) (msg : Message) :
    List (LH × ListenerConversation) :=
  b.listeners.filterMap (fun lst =>
    if listenerMatches E msg.message lst then some (lst.Handle (NewListenerConversation msg))
    else none)

/-- One help line as the spec words it: the raw pattern rendered as
inline code, followed by the description exactly when the description
is non-empty, one line per command. -/
def helpLine (cmd : Command CH) : String :=
  "`" ++ cmd.text ++ "`" ++
    (if cmd.description = "" then "" else " *–* " ++ cmd.description) ++ "\n"

/-- The message a receive result decodes to, if any. -/
def decoded : ReceiveResult M → Option M
  | .ok m => some m
  | .fail => none

/-! ## Helper lemmas -/

/-- The command-pass loop is the filterMap of the per-command match,
and its flag accumulates whether any command matched. -/
theorem searchCommandGo_eq (msg : Message) (cmds : List (Command CH)) (c : Bool) :
    searchCommandGo msg cmds c =
      (cmds.filterMap (fun cmd =>
         (cmd.matchFn msg.Text).map (fun m => (cmd.handler, NewConversation m msg))),
       c || cmds.any (commandMatches msg)) := by
  induction cmds generalizing c with
  | nil => simp [searchCommandGo]
  | cons cmd rest ih =>
    cases h : cmd.matchFn msg.Text with
    | some m =>
      simp [searchCommandGo, h, ih, List.filterMap_cons, commandMatches]
    | none =>
      simp [searchCommandGo, h, ih, List.filterMap_cons, commandMatches]

/-- `searchCommand` spawns exactly the command-pass calls, and reports
whether any command matched. -/
theorem searchCommand_eq (b : Bot CH LH σ) (msg : Message) :
    b.searchCommand msg = (commandPassCalls b msg, b.commands.any (commandMatches msg)) := by
  simp [Bot.searchCommand, searchCommandGo_eq, commandPassCalls]

/-- When no command matched, the command pass spawned no handler
call. -/
theorem searchCommand_nil_of_not_matched (b : Bot CH LH σ) (msg : Message)
    (h : (b.searchCommand msg).2 = false) : (b.searchCommand msg).1 = [] := by
  rw [searchCommand_eq] at h ⊢
  rw [List.any_eq_false] at h
  simp only [commandPassCalls, List.filterMap_eq_nil_iff]
  intro cmd hmem
  have hc := h cmd hmem
  rcases hx : cmd.matchFn msg.Text with _ | m
  · simp
  · exact absurd (by simp [commandMatches, hx]) hc

/-- The listener-pass loop, when every remaining regex compiles, is the
filterMap of the per-listener raw-text match, with the accumulated
flag. -/
theorem searchListenerGo_eq (E : RegexEngine ρ) (msg : Message)
    (lsts : List (Listener LH)) (l : Bool)
    (h : ∀ lst ∈ lsts, (E.compile lst.Get).isSome = true) :
    searchListenerGo E msg lsts l =
      .ok (lsts.filterMap (fun lst =>
             if listenerMatches E msg.message lst
             then some (lst.Handle (NewListenerConversation msg)) else none),
           l || lsts.any (listenerMatches E msg.message)) := by
  induction lsts generalizing l with
  | nil => simp [searchListenerGo]
  | cons lst rest ih =>
    have hc : (E.compile lst.Get).isSome = true := h lst (List.mem_cons_self _ _)
    rcases hr : E.compile lst.Get with _ | r
    · rw [hr] at hc; simp at hc
    · have hrest : ∀ x ∈ rest, (E.compile x.Get).isSome = true :=
        fun x hx => h x (List.mem_cons_of_mem _ hx)
      rcases hm : E.matchString r msg.message with _ | _
      · simp [searchListenerGo, hr, hm, ih _ hrest, List.filterMap_cons,
          listenerMatches]
      · simp [searchListenerGo, hr, hm, ih _ hrest, List.filterMap_cons,
          listenerMatches]

/-- `searchListener`, when every registered regex compiles, spawns
exactly the listener-pass calls (matched against the raw-text field)
and reports whether any listener matched. -/
theorem searchListener_eq (E : RegexEngine ρ) (b : Bot CH LH σ) (msg : Message)
    (h : ∀ lst ∈ b.listeners, (E.compile lst.Get).isSome = true) :
    b.searchListener E msg =
      .ok (listenerPassCalls E b msg, b.listeners.any (listenerMatches E msg.message)) := by
  simp [Bot.searchListener, searchListenerGo_eq E msg b.listeners false h,
    listenerPassCalls]

/-- Joining a list of strings with a head. -/
theorem string_join_cons (s : String) (l : List String) :
    String.join (s :: l) = s ++ String.join l := by
  apply String.ext
  simp

/-- The help loop appends one `helpLine` per command to the accumulated
text, in order. -/
theorem sendHelpGo_eq (cmds : List (Command CH)) (init : String) :
    sendHelpGo cmds init = init ++ String.join (cmds.map helpLine) := by
  induction cmds generalizing init with
  | nil => simp [sendHelpGo, String.join]
  | cons cmd rest ih =>
    show sendHelpGo rest _ = _
    rw [ih, List.map_cons, string_join_cons]
    apply String.ext
    by_cases hd : cmd.description = "" <;> simp [helpLine, hd]

/-- The strip sequence never touches the raw-text field. -/
theorem strippedMsg_message (b : Bot CH LH σ) (m : Message) :
    (strippedMsg b m).message = m.message := by
  simp only [strippedMsg, Message.StripPref, Message.StripLinkMarkup,
    Message.StripMention]
  split <;> rfl

/-- A run of the receive loop spawns exactly the decoded messages, in
order, and never returns. -/
theorem listenRun_spec (trace : List (ReceiveResult M)) :
    listenRun trace = (trace.filterMap decoded, false) := by
  induction trace with
  | nil => rfl
  | cons r rest ih =>
    cases r <;> simp [listenRun, listenBody, decoded, ih, List.filterMap_cons]

/-- The length of a filterMap counts the elements on which the function
succeeds. -/
theorem length_filterMap_eq_countP (f : α → Option β) (l : List α) :
    (l.filterMap f).length = l.countP (fun a => (f a).isSome) := by
  induction l with
  | nil => rfl
  | cons x xs ih =>
    cases h : f x <;> simp [List.filterMap_cons, h, List.countP_cons, ih]

/-! ## Concrete fixtures

Closed values used by the witnesses and counterexamples below.
-/

/-- `true` iff the parentheses in `s` are balanced. -/
def parensOk (s : String) : Bool :=
  (s.data.foldl
    (fun st c =>
      match st with
      | none => none
      | some n =>
        if c = '(' then some (n + 1)
        else if c = ')' then (match n with | 0 => none | k + 1 => some k)
        else some n)
    (some 0)) == some 0

/-- Modelled from the spec: a concrete instance of the Go `regexp`
fragment, covering exactly the patterns the concrete examples below
use — metacharacter-free patterns match as unanchored literal
substrings, and a pattern with unbalanced parentheses, such as `"("`,
fails to compile (Go's `regexp.Compile` rejects it with
`missing closing )` and returns a nil `*Regexp`). -/
def litRegex : RegexEngine String :=
  { compile := fun s => if parensOk s then some s else none,
    matchString := fun r t => containsTok r t }

/-- A concrete bot: identifier `U1`, default prefix `!`, no commands,
one listener registered with regex `"foo"` and handler token `5`. -/
def exBot : Bot Nat Nat Unit :=
  { socket := none, token := "t", id := "U1", commands := [],
    listeners := [NewListener "foo" 5], pref := "!" }

/-- A concrete bot whose only listener was registered with the invalid
regular expression `"("` (handler token `3`). -/
def exBadBot : Bot Nat Nat Unit :=
  { socket := none, token := "t", id := "U1", commands := [],
    listeners := [NewListener "(" 3], pref := "!" }

/-- A bot-addressed help request from a non-direct channel: raw and
derived text `"!help"`. -/
def exHelpMsg : Message :=
  { channel := "C1", user := "U9", message := "!help", text := "!help",
    direct := false }

/-- A message whose raw text contains `foo` while its derived text does
not. -/
def exRawMsg : Message :=
  { channel := "C1", user := "U9", message := "xx foo yy", text := "stripped",
    direct := false }

/-- A negotiation response with `ok = false` and error string
`invalid_auth`. -/
def exAuthResp : HandshakeResponse :=
  { ok := false, error := "invalid_auth", url := "wss://x", self := { id := "U1" } }

/-- An environment whose negotiation call succeeds at the HTTP level
and whose body parses to `exAuthResp`. -/
def exAuthEnv : SlackEnv Unit :=
  { httpGet := some { statusCode := 200, body := some "{}" },
    unmarshal := fun _ => some exAuthResp,
    dial := fun _ => some () }

/-! ## The claims -/

/-- **C1.** For every inbound message that is bot-addressed (over any
registry whose listener regexes all compile — the faulting case of an
invalid regex is settled separately with C8): if the fully-stripped
text is a help request, the only side effect of `process` is sending
the help reply — neither the command pass nor the listener pass
invokes a handler; otherwise the command pass runs, and the listener
pass runs if and only if no command matched, in which case the
listener pass receives the stripped message. -/
theorem process_dispatch (E : RegexEngine ρ) (b : Bot CH LH σ) (msg : Message)
    (hb : msg.IsBotMessage b.pref b.id = true)
    (hr : ∀ lst ∈ b.listeners, (E.compile lst.Get).isSome = true) :
    ((strippedMsg b msg).IsHelpRequest = true →
      b.process E msg = .ok [.sent (b.sendHelp (strippedMsg b msg))]) ∧
    ((strippedMsg b msg).IsHelpRequest = false →
      (b.searchCommand (strippedMsg b msg)).2 = true →
      b.process E msg = .ok (cmdEvents (b.searchCommand (strippedMsg b msg)).1)) ∧
    ((strippedMsg b msg).IsHelpRequest = false →
      (b.searchCommand (strippedMsg b msg)).2 = false →
      b.process E msg = .ok (lstEvents (listenerPassCalls E b (strippedMsg b msg)))) := by
  have hs : ((msg.StripMention b.id).StripLinkMarkup).StripPref b.pref = strippedMsg b msg := rfl
  refine ⟨?_, ?_, ?_⟩
  · intro h1
    simp [Bot.process, hb, hs, h1]
  · intro h1 h2
    simp [Bot.process, hb, hs, h1, h2]
  · intro h1 h2
    have hnil := searchCommand_nil_of_not_matched b (strippedMsg b msg) h2
    have hlst := searchListener_eq E b (strippedMsg b msg) hr
    simp [Bot.process, hb, hs, h1, h2, hnil, hlst, cmdEvents]

/-- **C1** witness: the concrete bot receiving the bot-addressed
message `"!help"` (which fully strips to the help keyword) sends the
help reply and invokes no handler. -/
theorem process_dispatch_witness :
    exBot.process litRegex exHelpMsg =
      .ok [.sent (exBot.sendHelp (strippedMsg exBot exHelpMsg))] :=
  (process_dispatch litRegex exBot exHelpMsg (by decide) (by decide)).1 (by decide)

/-- **C4.** For every message and every registry of listeners whose
regexes compile, the listener pass matches each listener's regex
against the message's **original raw** text (the `message` field) — not
the stripped derived text — and invokes every listener whose regex
matches, in registration order; moreover the strip sequence never
changes the raw-text field, so even for a bot-addressed message that
was stripped and fell through, the listener pass tests the original
raw text. -/
theorem searchListener_matches_raw_text (E : RegexEngine ρ) (b : Bot CH LH σ)
    (msg : Message)
    (hr : ∀ lst ∈ b.listeners, (E.compile lst.Get).isSome = true) :
    b.searchListener E msg =
      .ok (listenerPassCalls E b msg, b.listeners.any (listenerMatches E msg.message)) ∧
    (strippedMsg b msg).message = msg.message ∧
    listenerPassCalls E b (strippedMsg b msg) =
      b.listeners.filterMap (fun lst =>
        if listenerMatches E msg.message lst
        then some (lst.Handle (NewListenerConversation (strippedMsg b msg)))
        else none) := by
  refine ⟨searchListener_eq E b msg hr, strippedMsg_message b msg, ?_⟩
  rw [listenerPassCalls]
  simp only [strippedMsg_message]

/-- **C4** witness: the listener registered with regex `"foo"` fires on
the message whose raw text is `"xx foo yy"` although its derived text
(`"stripped"`) does not contain `foo`. -/
theorem searchListener_matches_raw_text_witness :
    exBot.searchListener litRegex exRawMsg =
      .ok ([(5, NewListenerConversation exRawMsg)], true) := by
  have h := (searchListener_matches_raw_text litRegex exBot exRawMsg (by decide)).1
  rw [h]
  rfl

/-- **C8** counterexample: `searchListener` is *not* total — with a
listener registered with the invalid regular expression `"("`,
`regexp.Compile`'s error is discarded, the nil `*Regexp` is
dereferenced, and the pass faults instead of returning a boolean. -/
theorem searchListener_invalid_regex_cex :
    exBadBot.searchListener litRegex exRawMsg = .error [] ∧
    (exBadBot.searchListener litRegex exRawMsg).isOk = false :=
  ⟨rfl, rfl⟩

/-- **C8** (amended): `searchListener` completes and returns a boolean
for every bot, message and registry of listeners **whose regex strings
all compile**; a listener registered with an invalid regular
expression instead faults the pass (nil-`*Regexp` dereference). -/
theorem searchListener_total_of_compiles (E : RegexEngine ρ) (b : Bot CH LH σ)
    (msg : Message)
    (hr : ∀ lst ∈ b.listeners, (E.compile lst.Get).isSome = true) :
    (b.searchListener E msg).isOk = true := by
  rw [searchListener_eq E b msg hr]
  rfl

/-- **C8** witness: with the sole listener's regex `"foo"` compiling,
the pass completes and returns a boolean. -/
theorem searchListener_total_of_compiles_witness :
    (exBot.searchListener litRegex exRawMsg).isOk = true :=
  searchListener_total_of_compiles litRegex exBot exRawMsg (by decide)

/-- **C2.** For every registry of commands and every message whose text
matches `k` of them (`k ≥ 0`), the command pass invokes exactly `k`
handlers — one per matching command, in registration order, each with
that command's own match result — and `searchCommand` returns `true`
if and only if `k > 0` (not first-match-wins). -/
theorem searchCommand_invokes_all_matches (b : Bot CH LH σ) (msg : Message) :
    (b.searchCommand msg).1 = commandPassCalls b msg ∧
    (b.searchCommand msg).1.length = b.commands.countP (commandMatches msg) ∧
    ((b.searchCommand msg).2 = true ↔ 0 < b.commands.countP (commandMatches msg)) := by
  rw [searchCommand_eq]
  refine ⟨rfl, ?_, ?_⟩
  · show (commandPassCalls b msg).length = _
    rw [commandPassCalls, length_filterMap_eq_countP]
    apply List.countP_congr
    intro cmd _
    simp [commandMatches]
  · show b.commands.any (commandMatches msg) = true ↔ _
    rw [List.any_eq_true, List.countP_pos_iff]

/-- **C3.** For every negotiation response with `ok == false`, bootstrap
(`New` / `Handshake`) fails with an error whose message is exactly the
service's error string, and no websocket connection is attempted. -/
theorem handshake_auth_failure (env : SlackEnv σ) (b : Bot CH LH σ)
    (res : HttpRes) (body : String) (resp : HandshakeResponse)
    (h1 : env.httpGet = some res) (h2 : res.statusCode = 200)
    (h3 : res.body = some body) (h4 : env.unmarshal body = some resp)
    (h5 : resp.ok = false) :
    Bot.Handshake env b = (.error resp.error, false) ∧
    (New env b.token : Except String (Bot CH LH σ) × Bool) = (.error resp.error, false) := by
  constructor
  · simp [Bot.Handshake, h1, h2, h3, h4, h5]
  · simp [New, Bot.Handshake, h1, h2, h3, h4, h5]

/-- **C3** witness: with the concrete environment whose negotiation
response is `{ok: false, error: "invalid_auth"}`, bootstrap fails with
exactly `invalid_auth` and `websocket.Dial` is never reached. -/
theorem handshake_auth_failure_witness :
    Bot.Handshake exAuthEnv exBot = (.error "invalid_auth", false) :=
  (handshake_auth_failure exAuthEnv exBot { statusCode := 200, body := some "{}" }
    "{}" exAuthResp rfl rfl rfl rfl rfl).1

/-- **C5** counterexample: in a run whose transport read reports
connection termination (a non-nil `Receive` error), `Listen` has not
returned — the loop body never leaves the loop, so the claim that
`Listen` returns when the connection terminates is false on the
code. -/
theorem listen_termination_cex :
    listenRun [(ReceiveResult.fail : ReceiveResult Message)] = ([], false) ∧
    listenBody (ReceiveResult.fail : ReceiveResult Message) ≠ LoopCmd.ret := by
  constructor
  · rfl
  · intro h
    simp [listenBody] at h

/-- **C5** (amended): `Listen` never returns — its `for` loop contains
no exit path, so in every run (in particular one in which the read
reports connection termination) the loop merely skips processing and
retries the receive. -/
theorem listen_never_returns (trace : List (ReceiveResult M)) :
    (listenRun trace).2 = false := by
  rw [listenRun_spec]

/-- **C6.** For every inbound frame that fails to decode, the receive
loop swallows the failure silently — no processing unit is spawned for
it, nothing is surfaced — and the loop continues with the next
receive: over any receive trace, the processing units spawned are
exactly the decoded messages, in order. -/
theorem listen_swallows_malformed (trace : List (ReceiveResult M)) :
    listenRun trace = (trace.filterMap decoded, false) :=
  listenRun_spec trace

/-- **C7.** For every registry of commands and every message, `sendHelp`
builds one multi-line reply: one `helpLine` per command in registration
order — the raw pattern as inline code, followed by its description
exactly when the description is non-empty — prefixed with an @-mention
of the sender if and only if the message did not originate in a direct
channel. -/
theorem sendHelp_format (b : Bot CH LH σ) (msg : Message) :
    b.sendHelpText msg =
      (if msg.IsDirectMessage then "" else "<@" ++ msg.User ++ ">: ") ++
        ("I can support you with those features:\n\n" ++
          String.join (b.commands.map helpLine)) ∧
    b.sendHelp msg = msg.SetText (b.sendHelpText msg) := by
  refine ⟨?_, rfl⟩
  unfold Bot.sendHelpText
  rw [sendHelpGo_eq]
  cases hd : msg.IsDirectMessage <;> simp [hd, String.empty_append]

/-- **C9.** Every command registered via `Bot.Command(pattern, handler)`
is stored with an empty description, so the help output always lists it
as its pattern alone, with no description suffix. -/
theorem command_empty_description (compile : String → String → Option MatchResult)
    (b : Bot CH LH σ) (p : String) (h : CH) :
    (Bot.Command compile b p h).commands = b.commands ++ [NewCommand compile p "" h] ∧
    (NewCommand compile p "" h).description = "" ∧
    helpLine (NewCommand compile p "" h) = "`" ++ p ++ "`" ++ "\n" ∧
    ∀ msg, (Bot.Command compile b p h).sendHelpText msg =
      b.sendHelpText msg ++ ("`" ++ p ++ "`" ++ "\n") := by
  refine ⟨rfl, rfl, ?_, ?_⟩
  · apply String.ext
    simp [helpLine, NewCommand]
  · intro msg
    apply String.ext
    unfold Bot.sendHelpText
    rw [sendHelpGo_eq, sendHelpGo_eq]
    cases hd : msg.IsDirectMessage <;>
      simp [Bot.Command, hd, helpLine, NewCommand]

/-- **C10.** Round-trip of listener registration: for every regex
string `r` and handler `h`, `NewListener(r, h).Get()` returns exactly
`r`, and `Handle` spawns exactly the registered handler `h` on the
given conversation. -/
theorem newListener_roundtrip [Inhabited LH] (r : String) (h : LH)
    (conv : ListenerConversation) :
    (NewListener r h).Get = r ∧ (NewListener r h).Handle conv = (h, conv) :=
  ⟨rfl, rfl⟩

end Hanu
